import Mathlib

/-!
Verification development for the carrom game engine: a shallow embedding of
the geometry kernel (src/unnamed/part_000, geometry section), the physics
engine (src/src/lib/physics.ts) and the shot planner (src/unnamed/part_000,
CarromAI section) over exact rational arithmetic, together with theorems
settling the frozen specification claims.

Modelling conventions:
* JavaScript numbers are embedded as rationals; numeric literals are taken at
  their decimal value.  `Math.sqrt` is embedded as `ratSqrt`, which agrees
  with the real square root exactly on perfect squares; theorems that need
  square-root exactness at a symbolic input carry it as a hypothesis, and all
  concrete evaluations below are arranged on perfect squares.
* Division by zero yields 0 in the rational embedding where JavaScript would
  produce NaN or Infinity; every place where this matters is noted.
* The transcendental functions `Math.atan2`, `Math.cos`, `Math.sin` used by
  the planner are embedded as an oracle record `Trig`; planner theorems are
  proved for every oracle, and concrete instances use an explicitly chosen
  oracle.
-/

attribute [local semireducible] Rat.mul Rat.add Rat.sub Rat.inv Rat.ofScientific

namespace Carrom

/-- Fuel-driven integer square root by the classical 4-ary digit recursion;
with fuel at least `log4 n + 1` (amply satisfied by fuel `n`) it computes the
floor of the real square root. -/
def natSqrtRec (fuel n : ℕ) : ℕ :=
  match fuel with
  | 0 => 0
  | f + 1 =>
    if n ≤ 1 then n
    else
      let s := 2 * natSqrtRec f (n / 4)
      if (s + 1) * (s + 1) ≤ n then s + 1 else s

/-- Embedding of `Math.sqrt` on the rationals: square root of the numerator
divided by square root of the denominator, each by `natSqrtRec`.  Exact
whenever the reduced argument has a perfect-square numerator and denominator;
theorems that rely on exactness of a square root at a symbolic input carry
`ratSqrt q * ratSqrt q = q` as a hypothesis.  On a negative input the result
is junk 0 where JavaScript yields NaN; the programs below only apply it to
sums of squares. -/
def ratSqrt (q : ℚ) : ℚ :=
  (natSqrtRec q.num.toNat q.num.toNat : ℚ) / (natSqrtRec q.den q.den : ℚ)

/-- Embedding of the `Point` interface (and the structurally identical
`Vector` interface) from the geometry module: a pair of coordinates. -/
structure Point where
  x : ℚ
  y : ℚ
deriving DecidableEq

/-- Embedding of the `Line` interface: a segment given by its two endpoints.
The source field `end` is a reserved word in Lean and is rendered `endp`. -/
structure Line where
  start : Point
  endp : Point
deriving DecidableEq

/-- Embedding of `distance(p1, p2)` from the geometry module:
`Math.sqrt(dx*dx + dy*dy)`. -/
def distance (p1 p2 : Point) : ℚ :=
  ratSqrt ((p2.x - p1.x) * (p2.x - p1.x) + (p2.y - p1.y) * (p2.y - p1.y))

/-- The parametric determinant `denom` computed by `lineIntersection`. -/
def ldenom (line1 line2 : Line) : ℚ :=
  (line1.start.x - line1.endp.x) * (line2.start.y - line2.endp.y) -
    (line1.start.y - line1.endp.y) * (line2.start.x - line2.endp.x)

/-- The parameter `t` solved by `lineIntersection` (position along `line1`). -/
def lparamT (line1 line2 : Line) : ℚ :=
  ((line1.start.x - line2.start.x) * (line2.start.y - line2.endp.y) -
      (line1.start.y - line2.start.y) * (line2.start.x - line2.endp.x)) /
    ldenom line1 line2

/-- The parameter `u` solved by `lineIntersection` (position along `line2`). -/
def lparamU (line1 line2 : Line) : ℚ :=
  -((line1.start.x - line1.endp.x) * (line1.start.y - line2.start.y) -
      (line1.start.y - line1.endp.y) * (line1.start.x - line2.start.x)) /
    ldenom line1 line2

/-- Embedding of `lineIntersection(line1, line2)` from the geometry module:
the standard parametric determinant test.  Returns `none` when the
determinant magnitude is below `1e-10` or the solved parameters leave
`[0,1]`; otherwise the point at parameter `t` along `line1`. -/
def lineIntersection (line1 line2 : Line) : Option Point :=
  if |ldenom line1 line2| < 1 / 10 ^ 10 then none
  else if 0 ≤ lparamT line1 line2 ∧ lparamT line1 line2 ≤ 1 ∧
      0 ≤ lparamU line1 line2 ∧ lparamU line1 line2 ≤ 1 then
    some ⟨line1.start.x + lparamT line1 line2 * (line1.endp.x - line1.start.x),
          line1.start.y + lparamT line1 line2 * (line1.endp.y - line1.start.y)⟩
  else none

/-- Claim C9: `lineIntersection` returns no result when the parametric
determinant magnitude is below `1e-10` or when the solved parameters `t`, `u`
fall outside `[0,1]`; otherwise it returns the point
`start1 + t * (end1 - start1)` for parameters `t, u ∈ [0,1]`, a point lying
within both segments parameter ranges (it also equals
`start2 + u * (end2 - start2)`). -/
theorem claim_C9 (line1 line2 : Line) :
    (|ldenom line1 line2| < 1 / 10 ^ 10 → lineIntersection line1 line2 = none) ∧
    (1 / 10 ^ 10 ≤ |ldenom line1 line2| →
      ¬(0 ≤ lparamT line1 line2 ∧ lparamT line1 line2 ≤ 1 ∧
          0 ≤ lparamU line1 line2 ∧ lparamU line1 line2 ≤ 1) →
      lineIntersection line1 line2 = none) ∧
    (∀ p, lineIntersection line1 line2 = some p →
      ∃ t u, 0 ≤ t ∧ t ≤ 1 ∧ 0 ≤ u ∧ u ≤ 1 ∧
        p.x = line1.start.x + t * (line1.endp.x - line1.start.x) ∧
        p.y = line1.start.y + t * (line1.endp.y - line1.start.y) ∧
        p.x = line2.start.x + u * (line2.endp.x - line2.start.x) ∧
        p.y = line2.start.y + u * (line2.endp.y - line2.start.y)) := by
  refine ⟨fun h => by rw [lineIntersection, if_pos h], fun h1 h2 => ?_, fun p hp => ?_⟩
  · rw [lineIntersection, if_neg (not_lt.mpr h1), if_neg h2]
  · rw [lineIntersection] at hp
    split_ifs at hp with h1 h2
    · have hD : ldenom line1 line2 ≠ 0 := by
        intro h0
        rw [h0] at h1
        norm_num at h1
      obtain ⟨ht0, ht1, hu0, hu1⟩ := h2
      have hpx : p.x = line1.start.x + lparamT line1 line2 * (line1.endp.x - line1.start.x) := by
        rw [← Option.some_inj.mp hp]
      have hpy : p.y = line1.start.y + lparamT line1 line2 * (line1.endp.y - line1.start.y) := by
        rw [← Option.some_inj.mp hp]
      refine ⟨lparamT line1 line2, lparamU line1 line2, ht0, ht1, hu0, hu1, hpx, hpy, ?_, ?_⟩
      · rw [hpx, lparamT, lparamU]
        rw [ldenom] at hD ⊢
        field_simp
        ring
      · rw [hpy, lparamT, lparamU]
        rw [ldenom] at hD ⊢
        field_simp
        ring

/-- Witness for claim C9: the diagonals of the unit square of side 2 meet at
`(1,1)` with parameters `t = u = 1/2`. -/
theorem claim_C9_witness :
    ∃ t u, 0 ≤ t ∧ t ≤ 1 ∧ 0 ≤ u ∧ u ≤ 1 ∧
      (1 : ℚ) = 0 + t * (2 - 0) ∧ (1 : ℚ) = 0 + t * (2 - 0) ∧
      (1 : ℚ) = 0 + u * (2 - 0) ∧ (1 : ℚ) = 2 + u * (0 - 2) := by
  have h := (claim_C9 ⟨⟨0, 0⟩, ⟨2, 2⟩⟩ ⟨⟨0, 2⟩, ⟨2, 0⟩⟩).2.2 ⟨1, 1⟩ (by decide)
  exact h

/-! ## Physics engine (src/src/lib/physics.ts) -/

/-- Embedding of the `PhysicsBody` interface. -/
structure PhysicsBody where
  id : String
  position : Point
  velocity : Point
  radius : ℚ
  mass : ℚ
  friction : ℚ
  restitution : ℚ
  isStatic : Bool
deriving DecidableEq

/-- Embedding of the `CollisionResult` interface.  In the source `bodyA` and
`bodyB` are live references into the registry; here they hold the values the
bodies had when the collision was detected (the claims below only inspect the
value fields `normal` and `penetration`, which the source also snapshots). -/
structure CollisionResult where
  bodyA : PhysicsBody
  bodyB : PhysicsBody
  normal : Point
  penetration : ℚ
  point : Point
deriving DecidableEq

/-- The fixed `margin` field of `PhysicsEngine` (always 20). -/
def margin : ℚ := 20

/-- The fixed `airResistance` field of `PhysicsEngine` (always 0.999). -/
def airResistance : ℚ := 0.999

/-- The fixed `gravity` field of `PhysicsEngine` (always `(0,0)`). -/
def gravity : Point := ⟨0, 0⟩

/-- Embedding of the `PhysicsEngine` state: the keyed body registry (a
JavaScript `Map` iterated in insertion order, embedded as a list unique in
`id`) and the board dimensions fixed at construction. -/
structure PhysicsEngine where
  bodies : List PhysicsBody
  boardWidth : ℚ
  boardHeight : ℚ
deriving DecidableEq

/-- `Map.set` on the registry: replace the entry carrying the same key in
place if present, otherwise append at the end (JavaScript `Map` keeps the
original insertion position on overwrite). -/
def setBody : List PhysicsBody → PhysicsBody → List PhysicsBody
  | [], b => [b]
  | c :: rest, b => if c.id = b.id then b :: rest else c :: setBody rest b

/-- Embedding of `addBody(body)`: `this.bodies.set(body.id, {...body})`.
There is no validation of any kind in the source. -/
def addBody (e : PhysicsEngine) (b : PhysicsBody) : PhysicsEngine :=
  { e with bodies := setBody e.bodies b }

/-- Embedding of `removeBody(id)`. -/
def removeBody (e : PhysicsEngine) (id : String) : PhysicsEngine :=
  { e with bodies := e.bodies.filter fun b => b.id != id }

/-- Embedding of `getBody(id)`. -/
def getBody (e : PhysicsEngine) (id : String) : Option PhysicsBody :=
  e.bodies.find? fun b => b.id == id

/-- Embedding of the `Partial<PhysicsBody>` argument of `updateBody`: every
field either absent or supplied.  An `id` entry is not modelled: updating the
`id` through `Object.assign` would desynchronise the stored body from its
`Map` key in the source, and no caller does so. -/
structure BodyPatch where
  position : Option Point
  velocity : Option Point
  radius : Option ℚ
  mass : Option ℚ
  friction : Option ℚ
  restitution : Option ℚ
  isStatic : Option Bool
deriving DecidableEq

/-- Embedding of `Object.assign(body, updates)`. -/
def applyPatch (b : PhysicsBody) (p : BodyPatch) : PhysicsBody :=
  { id := b.id
    position := p.position.getD b.position
    velocity := p.velocity.getD b.velocity
    radius := p.radius.getD b.radius
    mass := p.mass.getD b.mass
    friction := p.friction.getD b.friction
    restitution := p.restitution.getD b.restitution
    isStatic := p.isStatic.getD b.isStatic }

/-- Embedding of `updateBody(id, updates)`: assign the given fields onto the
stored body when present, do nothing (and signal nothing) otherwise.  No
validation of any kind in the source. -/
def updateBody (e : PhysicsEngine) (id : String) (p : BodyPatch) : PhysicsEngine :=
  match getBody e id with
  | none => e
  | some b => { e with bodies := setBody e.bodies (applyPatch b p) }

/-- Phase 1 of `step` for one body: gravity, air resistance, the
speed-proportional surface friction that clamps to zero instead of
overshooting, and position integration.  Static bodies are skipped. -/
def integrateBody (deltaTime : ℚ) (b : PhysicsBody) : PhysicsBody :=
  if b.isStatic then b
  else
    let vx := (b.velocity.x + gravity.x * deltaTime) * airResistance
    let vy := (b.velocity.y + gravity.y * deltaTime) * airResistance
    let speed := ratSqrt (vx * vx + vy * vy)
    let frictionForce := b.friction * deltaTime
    let frictionX := vx / speed * frictionForce
    let frictionY := vy / speed * frictionForce
    let vx1 := if speed > 0.1 then (if |vx| > |frictionX| then vx - frictionX else 0) else 0
    let vy1 := if speed > 0.1 then (if |vy| > |frictionY| then vy - frictionY else 0) else 0
    { b with velocity := ⟨vx1, vy1⟩
             position := ⟨b.position.x + vx1 * deltaTime, b.position.y + vy1 * deltaTime⟩ }

/-- Embedding of `handleWallCollisions(body)`: four sequential wall checks,
each clamping the position to the wall and reflecting the corresponding
velocity component scaled by the body restitution. -/
def handleWallCollisions (w h : ℚ) (b : PhysicsBody) : PhysicsBody :=
  let px1 := if b.position.x - b.radius ≤ margin then margin + b.radius else b.position.x
  let vx1 := if b.position.x - b.radius ≤ margin then -b.velocity.x * b.restitution else b.velocity.x
  let px2 := if px1 + b.radius ≥ w - margin then w - margin - b.radius else px1
  let vx2 := if px1 + b.radius ≥ w - margin then -vx1 * b.restitution else vx1
  let py1 := if b.position.y - b.radius ≤ margin then margin + b.radius else b.position.y
  let vy1 := if b.position.y - b.radius ≤ margin then -b.velocity.y * b.restitution else b.velocity.y
  let py2 := if py1 + b.radius ≥ h - margin then h - margin - b.radius else py1
  let vy2 := if py1 + b.radius ≥ h - margin then -vy1 * b.restitution else vy1
  { b with position := ⟨px2, py2⟩, velocity := ⟨vx2, vy2⟩ }

/-- Embedding of `checkCollision(bodyA, bodyB)`.  When the centres coincide
the JavaScript normal is `(NaN, NaN)` (0 divided by 0); the rational
embedding yields `(0, 0)` — both fail to be unit vectors, which is the point
claim C6 inspects. -/
def checkCollision (bodyA bodyB : PhysicsBody) : Option CollisionResult :=
  let dist := distance bodyA.position bodyB.position
  let minDistance := bodyA.radius + bodyB.radius
  if dist < minDistance then
    let normal : Point := ⟨(bodyB.position.x - bodyA.position.x) / dist,
                           (bodyB.position.y - bodyA.position.y) / dist⟩
    some { bodyA := bodyA, bodyB := bodyB, normal := normal
           penetration := minDistance - dist
           point := ⟨bodyA.position.x + normal.x * bodyA.radius,
                     bodyA.position.y + normal.y * bodyA.radius⟩ }
  else none

/-- Embedding of `resolveCollision(collision)`: positional separation split
proportionally to the opposite mass share and damped by 0.5, then an impulse
along the normal unless the bodies are separating; static bodies never move
nor receive impulse.  Returns the updated pair. -/
def resolveCollision (c : CollisionResult) : PhysicsBody × PhysicsBody :=
  let totalMass := c.bodyA.mass + c.bodyB.mass
  let separationA := c.bodyB.mass / totalMass * c.penetration * 0.5
  let separationB := c.bodyA.mass / totalMass * c.penetration * 0.5
  let posA := if c.bodyA.isStatic then c.bodyA.position else
    ⟨c.bodyA.position.x - c.normal.x * separationA,
     c.bodyA.position.y - c.normal.y * separationA⟩
  let posB := if c.bodyB.isStatic then c.bodyB.position else
    ⟨c.bodyB.position.x + c.normal.x * separationB,
     c.bodyB.position.y + c.normal.y * separationB⟩
  let relX := c.bodyB.velocity.x - c.bodyA.velocity.x
  let relY := c.bodyB.velocity.y - c.bodyA.velocity.y
  let velocityAlongNormal := relX * c.normal.x + relY * c.normal.y
  if velocityAlongNormal > 0 then
    ({ c.bodyA with position := posA }, { c.bodyB with position := posB })
  else
    let restitution := min c.bodyA.restitution c.bodyB.restitution
    let impulse := -(1 + restitution) * velocityAlongNormal /
      (1 / c.bodyA.mass + 1 / c.bodyB.mass)
    let velA := if c.bodyA.isStatic then c.bodyA.velocity else
      ⟨c.bodyA.velocity.x - impulse * c.normal.x / c.bodyA.mass,
       c.bodyA.velocity.y - impulse * c.normal.y / c.bodyA.mass⟩
    let velB := if c.bodyB.isStatic then c.bodyB.velocity else
      ⟨c.bodyB.velocity.x + impulse * c.normal.x / c.bodyB.mass,
       c.bodyB.velocity.y + impulse * c.normal.y / c.bodyB.mass⟩
    ({ c.bodyA with position := posA, velocity := velA },
     { c.bodyB with position := posB, velocity := velB })

/-- Default body used only for in-range list indexing inside the pair scan. -/
def dfltBody : PhysicsBody := ⟨"", ⟨0, 0⟩, ⟨0, 0⟩, 0, 0, 0, 0, false⟩

/-- One check of the pairwise collision scan of `step`, at indices `(i, j)`:
on a detected collision the resolved bodies are written back in place (the
source mutates the live bodies mid-scan) and the event is appended. -/
def pairScanStep (s : List PhysicsBody × List CollisionResult) (i j : ℕ) :
    List PhysicsBody × List CollisionResult :=
  match checkCollision (s.1.getD i dfltBody) (s.1.getD j dfltBody) with
  | none => s
  | some c =>
    let pair := resolveCollision c
    ((s.1.set i pair.1).set j pair.2, s.2 ++ [c])

/-- The pairwise collision scan of `step`: the double loop
`for i in 0..n-1, for j in i+1..n-1`, in the fixed order of the body array. -/
def pairScan (n : ℕ) (bs : List PhysicsBody) :
    List PhysicsBody × List CollisionResult :=
  (List.range n).foldl
    (fun s i => (List.range' (i + 1) (n - (i + 1))).foldl (fun s j => pairScanStep s i j) s)
    (bs, [])

/-- Embedding of `step(deltaTime)`: integrate every non-static body, clamp
each to the walls, then run the pairwise collision scan; returns the new
engine state together with the collision list (the source mutates in place
and returns the list). -/
def step (e : PhysicsEngine) (deltaTime : ℚ) : PhysicsEngine × List CollisionResult :=
  let moved := e.bodies.map (integrateBody deltaTime)
  let walled := moved.map fun b =>
    if b.isStatic then b else handleWallCollisions e.boardWidth e.boardHeight b
  let scanned := pairScan walled.length walled
  ({ e with bodies := scanned.1 }, scanned.2)

/-- Computable embedding of `Math.ceil` on the rationals (flooring division
of the negated numerator). -/
def ratCeil (q : ℚ) : ℤ := -Int.fdiv (-q.num) q.den

/-- Embedding of `isPathClear(start, end, excludeIds, buffer)`: sample the
segment every 2 units and test each sample point against every registered
body radius plus buffer.  When `start = end` the JavaScript loop divides 0 by
0 and compares NaN, finding no obstruction; the rational embedding tests the
single point `start` — no claim below evaluates the degenerate segment. -/
def isPathClear (e : PhysicsEngine) (start endPt : Point)
    (excludeIds : List String) (buffer : ℚ) : Bool :=
  let pathLength := distance start endPt
  let steps : ℕ := (ratCeil (pathLength / 2)).toNat
  (List.range (steps + 1)).all fun i =>
    let t : ℚ := (i : ℚ) / (steps : ℚ)
    let checkPoint : Point := ⟨start.x + (endPt.x - start.x) * t,
                               start.y + (endPt.y - start.y) * t⟩
    e.bodies.all fun b =>
      excludeIds.contains b.id || decide (b.radius + buffer < distance checkPoint b.position)

/-- Embedding of `stopAllBodies()`: zero the velocity of every registered
body, static or not. -/
def stopAllBodies (e : PhysicsEngine) : PhysicsEngine :=
  { e with bodies := e.bodies.map fun b => { b with velocity := ⟨0, 0⟩ } }

/-- Embedding of `hasMovingBodies()`: any non-static body with speed above
0.1. -/
def hasMovingBodies (e : PhysicsEngine) : Bool :=
  e.bodies.any fun b =>
    !b.isStatic &&
      decide (ratSqrt (b.velocity.x * b.velocity.x + b.velocity.y * b.velocity.y) > 0.1)

/-- One iteration of the `simulateTrajectory` loop body: air resistance, the
hard-coded friction constant `0.02 * timeStep`, position integration and the
hard-coded `0.8` wall restitution; `none` when the speed threshold exits the
loop before the position update. -/
def simStep (w h radius timeStep : ℚ) (pos vel : Point) : Option (Point × Point) :=
  let vx := vel.x * airResistance
  let vy := vel.y * airResistance
  let speed := ratSqrt (vx * vx + vy * vy)
  if speed > 0.1 then
    let friction := 0.02 * timeStep
    let frictionX := vx / speed * friction
    let frictionY := vy / speed * friction
    let vx1 := if |vx| > |frictionX| then vx - frictionX else 0
    let vy1 := if |vy| > |frictionY| then vy - frictionY else 0
    let px := pos.x + vx1 * timeStep
    let py := pos.y + vy1 * timeStep
    let hitX := px - radius ≤ margin ∨ px + radius ≥ w - margin
    let vx2 := if hitX then -vx1 * 0.8 else vx1
    let px2 := if hitX then (if px - radius ≤ margin then margin + radius else w - margin - radius)
      else px
    let hitY := py - radius ≤ margin ∨ py + radius ≥ h - margin
    let vy2 := if hitY then -vy1 * 0.8 else vy1
    let py2 := if hitY then (if py - radius ≤ margin then margin + radius else h - margin - radius)
      else py
    some (⟨px2, py2⟩, ⟨vx2, vy2⟩)
  else none

/-- The `simulateTrajectory` loop: push the current position, run the loop
body, stop when the friction threshold (inside `simStep`), the final
low-velocity check, or the step budget ends the loop. -/
def simLoop (w h radius timeStep : ℚ) : ℕ → Point → Point → List Point → List Point
  | 0, _, _, acc => acc.reverse
  | n + 1, pos, vel, acc =>
    match simStep w h radius timeStep pos vel with
    | none => (pos :: acc).reverse
    | some pv =>
      if |pv.2.x| < 0.5 ∧ |pv.2.y| < 0.5 then (pos :: acc).reverse
      else simLoop w h radius timeStep n pv.1 pv.2 (pos :: acc)

/-- Embedding of `simulateTrajectory(startPos, velocity, radius, steps,
timeStep)`; the defaults at the call sites used below are 10, 100, 1/60. -/
def simulateTrajectory (e : PhysicsEngine) (startPos velocity : Point)
    (radius : ℚ) (steps : ℕ) (timeStep : ℚ) : List Point :=
  simLoop e.boardWidth e.boardHeight radius timeStep steps startPos velocity []

/-! ## Claim C1: the overlap scenario of the spec -/

/-- Disc A of the C1 scenario: at `(100,100)`, radius 10, at rest. -/
def discA : PhysicsBody := ⟨"A", ⟨100, 100⟩, ⟨0, 0⟩, 10, 1, 0.02, 0.9, false⟩

/-- Disc B of the C1 scenario: at `(115,100)`, radius 10, at rest. -/
def discB : PhysicsBody := ⟨"B", ⟨115, 100⟩, ⟨0, 0⟩, 10, 1, 0.02, 0.9, false⟩

/-- The C1 scenario engine: an 800 by 800 board with the two overlapping
discs registered. -/
def engineC1 : PhysicsEngine := ⟨[discA, discB], 800, 800⟩

set_option maxRecDepth 4000 in
/-- Counterexample to claim C1 as stated: after one `step` the two discs are
still overlapping — the positional correction splits only half the
penetration between the two bodies, so the centre distance grows from 15 to
17.5, short of the radii sum 20. -/
theorem claim_C1_cex :
    ¬(discA.radius + discB.radius ≤
      distance ((getBody (step engineC1 (1 / 60)).1 "A").getD dfltBody).position
        ((getBody (step engineC1 (1 / 60)).1 "B").getD dfltBody).position) := by
  decide

set_option maxRecDepth 4000 in
/-- Claim C1, amended: one `step` on the overlapping pair moves disc A to
`(98.75, 100)` and disc B to `(116.25, 100)`; the centre distance grows from
15 to 17.5, halving the penetration from 5 to 2.5, but the discs still
overlap (17.5 < 20). -/
theorem claim_C1 :
    getBody (step engineC1 (1 / 60)).1 "A" = some { discA with position := ⟨98.75, 100⟩ } ∧
    getBody (step engineC1 (1 / 60)).1 "B" = some { discB with position := ⟨116.25, 100⟩ } ∧
    distance ((getBody (step engineC1 (1 / 60)).1 "A").getD dfltBody).position
        ((getBody (step engineC1 (1 / 60)).1 "B").getD dfltBody).position = 17.5 ∧
    (17.5 : ℚ) < discA.radius + discB.radius := by
  decide

/-! ## Claim C5: malformed input to the mutating engine calls -/

/-- A well-formed body registered under id `a` before the malformed calls. -/
def bodyC5orig : PhysicsBody := ⟨"a", ⟨50, 50⟩, ⟨0, 0⟩, 5, 1, 0.02, 0.5, false⟩

/-- A malformed body: duplicate id `a`, negative radius, negative mass. -/
def bodyC5bad : PhysicsBody := ⟨"a", ⟨60, 60⟩, ⟨0, 0⟩, -1, -2, 0.02, 0.5, false⟩

/-- The engine holding `bodyC5orig` before the malformed `addBody`. -/
def engineC5 : PhysicsEngine := ⟨[bodyC5orig], 800, 800⟩

/-- After `setBody`, looking up the key of the inserted body yields exactly
that body. -/
theorem find_setBody (l : List PhysicsBody) (b : PhysicsBody) :
    (setBody l b).find? (fun c => c.id == b.id) = some b := by
  induction l with
  | nil => simp [setBody]
  | cons c rest ih =>
    rw [setBody]
    by_cases h : c.id = b.id
    · rw [if_pos h]
      simp
    · rw [if_neg h]
      simp only [List.find?_cons]
      rw [show (c.id == b.id) = false by simpa using h]
      exact ih

/-- A malformed partial update: radius set to -3 and mass to -4. -/
def patchC5bad : BodyPatch := ⟨none, none, some (-3), some (-4), none, none, none⟩

/-- Counterexample to claim C5 as stated: calling `addBody` with a body that
both reuses a registered id and has negative radius and mass changes the
registry (the old entry is overwritten) and stores the malformed body; and
calling `updateBody` with a negative radius and mass on the registered id
also changes the registry, silently merging the malformed fields onto the
stored body.  No error of any kind is signalled (both return types carry
none). -/
theorem claim_C5_cex :
    bodyC5bad.radius < 0 ∧ bodyC5bad.mass < 0 ∧
    getBody engineC5 bodyC5bad.id = some bodyC5orig ∧
    (addBody engineC5 bodyC5bad).bodies ≠ engineC5.bodies ∧
    getBody (addBody engineC5 bodyC5bad) "a" = some bodyC5bad ∧
    (updateBody engineC5 "a" patchC5bad).bodies ≠ engineC5.bodies ∧
    getBody (updateBody engineC5 "a" patchC5bad) "a" =
      some { bodyC5orig with radius := -3, mass := -4 } := by
  decide

/-- Claim C5, amended: the mutating calls perform no validation at all.
`addBody` stores any body — duplicate id, non-positive radius or mass
included — under its id, overwriting silently; `updateBody` on an absent id
silently does nothing, and on a registered id silently stores the
`Object.assign` merge of the patch onto the stored body, malformed fields
included.  Neither call signals any error. -/
theorem claim_C5 :
    ∀ (e : PhysicsEngine) (b : PhysicsBody) (id : String) (p : BodyPatch),
      getBody (addBody e b) b.id = some b ∧
      (getBody e id = none → updateBody e id p = e) ∧
      (∀ b0, getBody e id = some b0 →
        getBody (updateBody e id p) id = some (applyPatch b0 p)) := by
  intro e b id p
  refine ⟨?_, fun h => ?_, fun b0 h => ?_⟩
  · rw [addBody, getBody]
    exact find_setBody e.bodies b
  · rw [updateBody, h]
  · have hid : b0.id = id := by
      rw [getBody] at h
      have hp := List.find?_some h
      simpa using hp
    rw [updateBody, h, getBody]
    show List.find? (fun c => c.id == id) (setBody e.bodies (applyPatch b0 p)) = _
    rw [show id = (applyPatch b0 p).id from by
      rw [show (applyPatch b0 p).id = b0.id from rfl, hid]]
    exact find_setBody e.bodies (applyPatch b0 p)

/-- Witness for claim C5 at the concrete malformed inputs of the
counterexample engine: the malformed `addBody` store, the absent-id
`updateBody` no-op, and the malformed merge onto the registered id. -/
theorem claim_C5_witness :
    getBody (addBody engineC5 bodyC5bad) bodyC5bad.id = some bodyC5bad ∧
    updateBody engineC5 "zz" patchC5bad = engineC5 ∧
    getBody (updateBody engineC5 "a" patchC5bad) "a" =
      some (applyPatch bodyC5orig patchC5bad) := by
  exact ⟨(claim_C5 engineC5 bodyC5bad "zz" patchC5bad).1,
    (claim_C5 engineC5 bodyC5bad "zz" patchC5bad).2.1 (by decide),
    (claim_C5 engineC5 bodyC5bad "a" patchC5bad).2.2 bodyC5orig (by decide)⟩

/-! ## Claim C10: stopAllBodies -/

/-- Claim C10: `stopAllBodies` zeroes the velocity of every registered body —
looked up by any id, the stored body is exactly the old one with velocity
`(0,0)` and every other field (and the membership of the registry itself)
unchanged — and `hasMovingBodies` returns false immediately afterwards. -/
theorem claim_C10 :
    ∀ (e : PhysicsEngine),
      (∀ id, getBody (stopAllBodies e) id =
        (getBody e id).map fun b => { b with velocity := ⟨0, 0⟩ }) ∧
      hasMovingBodies (stopAllBodies e) = false := by
  intro e
  constructor
  · intro id
    rw [stopAllBodies, getBody, getBody]
    simp only [List.find?_map]
    rfl
  · rw [stopAllBodies, hasMovingBodies, List.any_map, List.any_eq_false]
    intro b _
    show ¬(!b.isStatic && decide (ratSqrt ((0 : ℚ) * 0 + 0 * 0) > 0.1)) = true
    rw [show (decide (ratSqrt ((0 : ℚ) * 0 + 0 * 0) > 0.1)) = false from rfl]
    simp

/-! ## Claim C7: momentum conservation in resolveCollision -/

/-- Claim C7: for two non-static bodies of positive mass, `resolveCollision`
preserves total momentum exactly (componentwise) — the positional phase never
touches velocities, and the impulse phase adds and subtracts the same impulse
vector scaled by the inverse masses. -/
theorem claim_C7 (c : CollisionResult)
    (hA : c.bodyA.isStatic = false) (hB : c.bodyB.isStatic = false)
    (hmA : 0 < c.bodyA.mass) (hmB : 0 < c.bodyB.mass) :
    (resolveCollision c).1.mass * (resolveCollision c).1.velocity.x +
        (resolveCollision c).2.mass * (resolveCollision c).2.velocity.x =
      c.bodyA.mass * c.bodyA.velocity.x + c.bodyB.mass * c.bodyB.velocity.x ∧
    (resolveCollision c).1.mass * (resolveCollision c).1.velocity.y +
        (resolveCollision c).2.mass * (resolveCollision c).2.velocity.y =
      c.bodyA.mass * c.bodyA.velocity.y + c.bodyB.mass * c.bodyB.velocity.y := by
  have hA' : c.bodyA.mass ≠ 0 := ne_of_gt hmA
  have hB' : c.bodyB.mass ≠ 0 := ne_of_gt hmB
  rw [resolveCollision, hA, hB]
  simp only [Bool.false_eq_true, if_false]
  split_ifs with h
  · exact ⟨rfl, rfl⟩
  · constructor
    · field_simp
      ring
    · field_simp
      ring

/-- The concrete head-on collision used to witness claim C7. -/
def collisionC7 : CollisionResult :=
  ⟨⟨"L", ⟨90, 100⟩, ⟨1, 0⟩, 10, 1, 0.02, 1, false⟩,
   ⟨"R", ⟨109, 100⟩, ⟨-1, 0⟩, 10, 1, 0.02, 1, false⟩,
   ⟨1, 0⟩, 1, ⟨100, 100⟩⟩

/-- Witness for claim C7 at the concrete head-on collision. -/
theorem claim_C7_witness :
    (resolveCollision collisionC7).1.mass * (resolveCollision collisionC7).1.velocity.x +
        (resolveCollision collisionC7).2.mass * (resolveCollision collisionC7).2.velocity.x =
      collisionC7.bodyA.mass * collisionC7.bodyA.velocity.x +
        collisionC7.bodyB.mass * collisionC7.bodyB.velocity.x ∧
    (resolveCollision collisionC7).1.mass * (resolveCollision collisionC7).1.velocity.y +
        (resolveCollision collisionC7).2.mass * (resolveCollision collisionC7).2.velocity.y =
      collisionC7.bodyA.mass * collisionC7.bodyA.velocity.y +
        collisionC7.bodyB.mass * collisionC7.bodyB.velocity.y :=
  claim_C7 collisionC7 rfl rfl (by norm_num [collisionC7]) (by norm_num [collisionC7])

/-! ## Claim C6: collision event normal and penetration -/

/-- Two discs whose centres coincide exactly: the degenerate case of C6. -/
def discD1 : PhysicsBody := ⟨"D1", ⟨100, 100⟩, ⟨0, 0⟩, 10, 1, 0.02, 0.9, false⟩

/-- Second coincident disc of the C6 counterexample. -/
def discD2 : PhysicsBody := ⟨"D2", ⟨100, 100⟩, ⟨0, 0⟩, 10, 1, 0.02, 0.9, false⟩

/-- The C6 counterexample engine holding the two coincident discs. -/
def engineC6 : PhysicsEngine := ⟨[discD1, discD2], 800, 800⟩

set_option maxRecDepth 4000 in
/-- Counterexample to claim C6 as stated: when the two centres coincide,
`step` still emits a collision event, but its normal is produced by dividing
by the zero centre distance — `(NaN, NaN)` at runtime, `(0, 0)` in the
rational embedding — and is not a unit vector. -/
theorem claim_C6_cex :
    ¬(∀ c ∈ (step engineC6 (1 / 60)).2,
      c.normal.x * c.normal.x + c.normal.y * c.normal.y = 1) := by
  decide

/-- Claim C6, amended: every collision event produced by `checkCollision`
(the sole producer of the events `step` returns) has strictly positive
penetration; and whenever the centre distance is nonzero — with the square
root exact at the squared centre distance — the contact normal is a unit
vector.  In the coincident-centre case the normal is the junk value of
division by zero instead. -/
theorem claim_C6 (a b : PhysicsBody) (c : CollisionResult)
    (hc : checkCollision a b = some c) :
    0 < c.penetration ∧
    (distance a.position b.position ≠ 0 →
      distance a.position b.position * distance a.position b.position =
        (b.position.x - a.position.x) * (b.position.x - a.position.x) +
          (b.position.y - a.position.y) * (b.position.y - a.position.y) →
      c.normal.x * c.normal.x + c.normal.y * c.normal.y = 1) := by
  rw [checkCollision] at hc
  split_ifs at hc with h
  · obtain rfl := Option.some_inj.mp hc.symm
    refine ⟨by simpa using h, fun hd hexact => ?_⟩
    show (b.position.x - a.position.x) / distance a.position b.position *
        ((b.position.x - a.position.x) / distance a.position b.position) +
      (b.position.y - a.position.y) / distance a.position b.position *
        ((b.position.y - a.position.y) / distance a.position b.position) = 1
    field_simp
    linarith [hexact]

/-- The two 3-4-5 discs used to witness claim C6: centre distance exactly 5,
radii sum 6. -/
def discE1 : PhysicsBody := ⟨"E1", ⟨0, 0⟩, ⟨0, 0⟩, 3, 1, 0.02, 0.9, false⟩

/-- Second disc of the C6 witness. -/
def discE2 : PhysicsBody := ⟨"E2", ⟨3, 4⟩, ⟨0, 0⟩, 3, 1, 0.02, 0.9, false⟩

/-- Default collision record used only for option extraction in witnesses. -/
def dfltCollision : CollisionResult := ⟨dfltBody, dfltBody, ⟨0, 0⟩, 0, ⟨0, 0⟩⟩

/-- Witness for claim C6 at the 3-4-5 disc pair: the emitted normal is
`(3/5, 4/5)`, a unit vector, and the penetration is 1 > 0. -/
theorem claim_C6_witness :
    0 < ((checkCollision discE1 discE2).getD dfltCollision).penetration ∧
    ((checkCollision discE1 discE2).getD dfltCollision).normal.x *
        ((checkCollision discE1 discE2).getD dfltCollision).normal.x +
      ((checkCollision discE1 discE2).getD dfltCollision).normal.y *
        ((checkCollision discE1 discE2).getD dfltCollision).normal.y = 1 := by
  have h := claim_C6 discE1 discE2 ((checkCollision discE1 discE2).getD dfltCollision)
    (by decide)
  exact ⟨h.1, h.2 (by decide) (by decide)⟩

/-! ## Claim C8: board bounds after step -/

/-- Disc resting exactly on the left wall clamp line, used by the C8
counterexample. -/
def discW1 : PhysicsBody := ⟨"W1", ⟨30, 100⟩, ⟨0, 0⟩, 10, 1, 0.02, 0.5, false⟩

/-- Disc overlapping `discW1` from the right, used by the C8 counterexample. -/
def discW2 : PhysicsBody := ⟨"W2", ⟨45, 100⟩, ⟨0, 0⟩, 10, 1, 0.02, 0.5, false⟩

/-- The C8 counterexample engine. -/
def engineC8 : PhysicsEngine := ⟨[discW1, discW2], 800, 800⟩

set_option maxRecDepth 4000 in
/-- Counterexample to claim C8 as stated: the body-body positional
correction runs after the wall clamping inside the same `step`, and pushes
the left disc from `x = 30` (exactly on the clamp line `margin + radius`)
out to `x = 28.75 < 30`, outside the claimed bounds. -/
theorem claim_C8_cex :
    ¬(∀ b ∈ (step engineC8 (1 / 60)).1.bodies, b.isStatic = false →
      margin + b.radius ≤ b.position.x ∧
        b.position.x ≤ engineC8.boardWidth - margin - b.radius ∧
        margin + b.radius ≤ b.position.y ∧
        b.position.y ≤ engineC8.boardHeight - margin - b.radius) := by
  decide

/-- `handleWallCollisions` leaves any body inside the wall bounds, provided
the board is wide and tall enough that opposite clamp lines do not cross. -/
theorem handleWall_bounds (w h : ℚ) (b : PhysicsBody)
    (hw : 2 * (margin + b.radius) < w) (hh : 2 * (margin + b.radius) < h) :
    margin + b.radius ≤ (handleWallCollisions w h b).position.x ∧
    (handleWallCollisions w h b).position.x ≤ w - margin - b.radius ∧
    margin + b.radius ≤ (handleWallCollisions w h b).position.y ∧
    (handleWallCollisions w h b).position.y ≤ h - margin - b.radius := by
  rw [handleWallCollisions]
  dsimp only
  split_ifs <;>
    exact ⟨by linarith, by linarith, by linarith, by linarith⟩

/-- `integrateBody` changes only position and velocity. -/
theorem integrateBody_fields (dt : ℚ) (b : PhysicsBody) :
    (integrateBody dt b).radius = b.radius ∧ (integrateBody dt b).isStatic = b.isStatic := by
  rw [integrateBody]
  split_ifs <;> exact ⟨rfl, rfl⟩

/-- `handleWallCollisions` changes only position and velocity. -/
theorem handleWall_fields (w h : ℚ) (b : PhysicsBody) :
    (handleWallCollisions w h b).radius = b.radius := rfl

/-- Claim C8, amended: the bound `margin + radius ≤ x ≤ width - margin -
radius` (and likewise for `y`) holds after `step` for every body that the
body-body positional correction does not displace — here stated for an
engine with a single registered non-static body, on a board wide enough for
the clamp lines not to cross.  The counterexample shows the correction phase
can break the bound for colliding pairs. -/
theorem claim_C8 (e : PhysicsEngine) (dt : ℚ) (b : PhysicsBody)
    (hbodies : e.bodies = [b])
    (hw : 2 * (margin + b.radius) < e.boardWidth)
    (hh : 2 * (margin + b.radius) < e.boardHeight)
    (hst : b.isStatic = false) :
    ∀ b' ∈ (step e dt).1.bodies,
      margin + b'.radius ≤ b'.position.x ∧
        b'.position.x ≤ e.boardWidth - margin - b'.radius ∧
        margin + b'.radius ≤ b'.position.y ∧
        b'.position.y ≤ e.boardHeight - margin - b'.radius := by
  intro b' hb'
  rw [step] at hb'
  simp only [hbodies, List.map_cons, List.map_nil] at hb'
  rw [(integrateBody_fields dt b).2, hst] at hb'
  simp only [Bool.false_eq_true, if_false] at hb'
  have hscan : pairScan 1 [handleWallCollisions e.boardWidth e.boardHeight (integrateBody dt b)] =
      ([handleWallCollisions e.boardWidth e.boardHeight (integrateBody dt b)], []) := by
    rw [pairScan]
    rfl
  simp only [List.length_cons, List.length_nil, hscan] at hb'
  obtain rfl : b' = handleWallCollisions e.boardWidth e.boardHeight (integrateBody dt b) := by
    simpa using hb'
  rw [handleWall_fields, (integrateBody_fields dt b).1]
  have h4 := handleWall_bounds e.boardWidth e.boardHeight (integrateBody dt b)
    (by rw [(integrateBody_fields dt b).1]; exact hw)
    (by rw [(integrateBody_fields dt b).1]; exact hh)
  rw [(integrateBody_fields dt b).1] at h4
  exact h4

/-- The single-disc engine used to witness claim C8. -/
def engineC8w : PhysicsEngine := ⟨[⟨"S", ⟨400, 300⟩, ⟨30, 40⟩, 10, 1, 0.02, 0.5, false⟩], 800, 800⟩

set_option maxRecDepth 4000 in
/-- Witness for claim C8 on the single-disc engine, stated of the first (and
only) stored body after the step. -/
theorem claim_C8_witness :
    margin + ((step engineC8w (1 / 60)).1.bodies.headD dfltBody).radius ≤
        ((step engineC8w (1 / 60)).1.bodies.headD dfltBody).position.x ∧
      ((step engineC8w (1 / 60)).1.bodies.headD dfltBody).position.x ≤
        engineC8w.boardWidth - margin -
          ((step engineC8w (1 / 60)).1.bodies.headD dfltBody).radius ∧
      margin + ((step engineC8w (1 / 60)).1.bodies.headD dfltBody).radius ≤
        ((step engineC8w (1 / 60)).1.bodies.headD dfltBody).position.y ∧
      ((step engineC8w (1 / 60)).1.bodies.headD dfltBody).position.y ≤
        engineC8w.boardHeight - margin -
          ((step engineC8w (1 / 60)).1.bodies.headD dfltBody).radius := by
  have hne : (step engineC8w (1 / 60)).1.bodies ≠ [] := by decide
  have hmem : (step engineC8w (1 / 60)).1.bodies.headD dfltBody ∈
      (step engineC8w (1 / 60)).1.bodies := by
    cases h : (step engineC8w (1 / 60)).1.bodies with
    | nil => exact absurd h hne
    | cons a l => simp
  exact claim_C8 engineC8w (1 / 60) ⟨"S", ⟨400, 300⟩, ⟨30, 40⟩, 10, 1, 0.02, 0.5, false⟩
    rfl (by norm_num [margin, engineC8w]) (by norm_num [margin, engineC8w]) rfl _ hmem

/-! ## Claim C4: predictor versus authoritative step -/

/-- The disc exhibiting the C4 divergence: friction 1 (not the 0.02 the
predictor hard-codes). -/
def discF : PhysicsBody := ⟨"F", ⟨400, 400⟩, ⟨10, 0⟩, 10, 1, 1, 0.5, false⟩

/-- Counterexample to claim C4 as stated: for a body with friction 1 and
restitution 0.5, one iteration of the trajectory predictor disagrees with
the authoritative per-body update — the predictor hard-codes friction
`0.02 * timeStep` and wall restitution `0.8` instead of reading the body
fields, so there is no shared source of truth for these constants. -/
theorem claim_C4_cex :
    simStep 800 800 discF.radius 1 discF.position discF.velocity ≠
      some ((handleWallCollisions 800 800 (integrateBody 1 discF)).position,
            (handleWallCollisions 800 800 (integrateBody 1 discF)).velocity) := by
  decide

set_option maxHeartbeats 2000000 in
/-- Claim C4, amended: one iteration of `simulateTrajectory` agrees exactly
with the authoritative per-body update of `step` (integration followed by
wall handling) precisely when the body carries the constants the predictor
hard-codes — friction 0.02 and restitution 0.8 — the speed after drag is
above the 0.1 threshold, and the board is wide enough that opposite wall
clamps cannot both fire. -/
theorem claim_C4 (b : PhysicsBody) (w h dt : ℚ)
    (hst : b.isStatic = false) (hf : b.friction = 0.02) (hr : b.restitution = 0.8)
    (hspeed : ratSqrt (b.velocity.x * airResistance * (b.velocity.x * airResistance) +
        b.velocity.y * airResistance * (b.velocity.y * airResistance)) > 0.1)
    (hw : 2 * (margin + b.radius) < w) (hh : 2 * (margin + b.radius) < h) :
    simStep w h b.radius dt b.position b.velocity =
      some ((handleWallCollisions w h (integrateBody dt b)).position,
            (handleWallCollisions w h (integrateBody dt b)).velocity) := by
  have hgx : (b.velocity.x + gravity.x * dt) * airResistance = b.velocity.x * airResistance := by
    show (b.velocity.x + 0 * dt) * airResistance = _
    ring
  have hgy : (b.velocity.y + gravity.y * dt) * airResistance = b.velocity.y * airResistance := by
    show (b.velocity.y + 0 * dt) * airResistance = _
    ring
  simp only [simStep, integrateBody, handleWallCollisions, hst, Bool.false_eq_true, if_false,
    hgx, hgy, hf, hr, hspeed, if_true, Option.some.injEq, Prod.mk.injEq, Point.mk.injEq]
  refine ⟨⟨?_, ?_⟩, ?_, ?_⟩
  all_goals split_ifs <;> (try simp only [not_or] at *) <;> (try casesm* _ ∨ _, _ ∧ _) <;>
    linarith

/-- A disc carrying exactly the constants the predictor hard-codes: friction
0.02 and restitution 0.8, moving at speed 50. -/
def discG : PhysicsBody := ⟨"G", ⟨400, 300⟩, ⟨30, 40⟩, 10, 1, 0.02, 0.8, false⟩

/-- Witness for claim C4 at the matching-constants disc. -/
theorem claim_C4_witness :
    simStep 800 800 discG.radius (1 / 60) discG.position discG.velocity =
      some ((handleWallCollisions 800 800 (integrateBody (1 / 60) discG)).position,
            (handleWallCollisions 800 800 (integrateBody (1 / 60) discG)).velocity) :=
  claim_C4 discG 800 800 (1 / 60) rfl rfl rfl (by decide)
    (by norm_num [margin, discG]) (by norm_num [margin, discG])

/-! ## Shot planner (src/unnamed/part_000, CarromAI) -/

/-- Oracle for the transcendental JavaScript functions `Math.atan2`,
`Math.cos`, `Math.sin` used by the planner.  No computable exact embedding
exists on the rationals, so the planner is parametrised by the oracle and
every planner theorem is proved for all oracles; concrete counterexamples
instantiate it explicitly. -/
structure Trig where
  atan2 : ℚ → ℚ → ℚ
  cos : ℚ → ℚ
  sin : ℚ → ℚ

/-- Embedding of `angle(from, to)` from the geometry module:
`Math.atan2(to.y - from.y, to.x - from.x)`. -/
def angle (T : Trig) (p q : Point) : ℚ :=
  T.atan2 (q.y - p.y) (q.x - p.x)

/-- The double value of the JavaScript constant `Math.PI`. -/
def piQ : ℚ := 3.141592653589793

/-- `piQ` is positive. -/
theorem piQ_pos : 0 < piQ := by norm_num [piQ]

/-- Embedding of `normalizeAngle(angle)` from the geometry module.  The
source normalises by two `while` loops that add or subtract `2 * Math.PI`
until the angle lies in `[0, 2 pi)`; on exact rationals their combined effect
is exactly the reduction modulo `2 * piQ` written here in closed form.  The
two theorems `normalizeAngle_eq_self` and `normalizeAngle_add_period` below
verify the loop equations of the source against this definition. -/
def normalizeAngle (a : ℚ) : ℚ :=
  a - 2 * piQ * (Rat.floor (a / (2 * piQ)) : ℚ)

/-- Within `[0, 2 pi)` both loops of `normalizeAngle` are skipped and the
angle is returned unchanged. -/
theorem normalizeAngle_eq_self (a : ℚ) (h0 : 0 ≤ a) (h1 : a < 2 * piQ) :
    normalizeAngle a = a := by
  have hf : Rat.floor (a / (2 * piQ)) = 0 := by
    have h2 : ⌊a / (2 * piQ)⌋ = Rat.floor (a / (2 * piQ)) := rfl
    rw [← h2, Int.floor_eq_zero_iff]
    constructor
    · exact div_nonneg h0 (by linarith [piQ_pos])
    · rw [div_lt_one (by linarith [piQ_pos])]
      exact h1
  rw [normalizeAngle, hf]
  push_cast
  ring

/-- One iteration of either `while` loop of `normalizeAngle` (adding or
subtracting one period) leaves the result unchanged. -/
theorem normalizeAngle_add_period (a : ℚ) :
    normalizeAngle (a + 2 * piQ) = normalizeAngle a := by
  have hfl : ∀ x : ℚ, Rat.floor (x + 1) = Rat.floor x + 1 := fun x => by
    have h1 : ⌊x + 1⌋ = Rat.floor (x + 1) := rfl
    have h2 : ⌊x⌋ = Rat.floor x := rfl
    rw [← h1, ← h2, Int.floor_add_one]
  have hT : (2 * piQ) ≠ 0 := by norm_num [piQ]
  have hdiv : (a + 2 * piQ) / (2 * piQ) = a / (2 * piQ) + 1 := by
    field_simp
  rw [normalizeAngle, normalizeAngle, hdiv, hfl]
  push_cast
  ring

/-- Embedding of the `CarromPocket` interface. -/
structure CarromPocket where
  position : Point
  radius : ℚ
deriving DecidableEq

/-- The `type` field of `ShotOption` (a string union in the source). -/
inductive ShotType
  | direct
  | bank
  | carom
  | combination
deriving DecidableEq

/-- The `risk` field of `ShotOption` (a string union in the source). -/
inductive RiskLevel
  | low
  | medium
  | high
deriving DecidableEq

/-- Embedding of the `ShotOption` interface. -/
structure ShotOption where
  id : String
  type : ShotType
  targetCoin : String
  targetPocket : CarromPocket
  strikerPosition : Point
  angle : ℚ
  power : ℚ
  successProbability : ℚ
  trajectory : List Point
  bankPoints : Option (List Point)
  intermediateCoins : Option (List String)
  description : String
  risk : RiskLevel
deriving DecidableEq

/-- The `currentPlayer` field of the planner `GameState`. -/
inductive PlayerSide
  | player
  | opponent
deriving DecidableEq

/-- The `gamePhase` field of the planner `GameState`. -/
inductive GamePhase
  | initial
  | playing
  | endgame
deriving DecidableEq

/-- Embedding of the planner `GameState` interface. -/
structure GameState where
  playerCoins : List PhysicsBody
  opponentCoins : List PhysicsBody
  striker : PhysicsBody
  queen : Option PhysicsBody
  pockets : List CarromPocket
  currentPlayer : PlayerSide
  gamePhase : GamePhase
deriving DecidableEq

/-- Embedding of the `CarromAI` instance fields fixed at construction: board
dimensions and the difficulty-derived accuracy multiplier.  The
`physicsEngine` field is passed separately to every operation that reads it. -/
structure CarromAI where
  boardWidth : ℚ
  boardHeight : ℚ
  accuracyMultiplier : ℚ
deriving DecidableEq

/-- The AI difficulty setting of the `CarromAI` constructor. -/
inductive Difficulty
  | easy
  | medium
  | hard
  | expert

/-- The accuracy multiplier assigned by the `CarromAI` constructor switch. -/
def accuracyOf : Difficulty → ℚ
  | .easy => 0.7
  | .medium => 0.85
  | .hard => 0.95
  | .expert => 1.0

/-- Embedding of the `CarromAI` constructor. -/
def mkCarromAI (boardWidth boardHeight : ℚ) (difficulty : Difficulty) : CarromAI :=
  ⟨boardWidth, boardHeight, accuracyOf difficulty⟩

/-- The four corner pockets initialised by the `CarromAI` constructor
(radius 25, margin 30). -/
def aiPockets (ai : CarromAI) : List CarromPocket :=
  [⟨⟨30, 30⟩, 25⟩, ⟨⟨ai.boardWidth - 30, 30⟩, 25⟩,
   ⟨⟨30, ai.boardHeight - 30⟩, 25⟩, ⟨⟨ai.boardWidth - 30, ai.boardHeight - 30⟩, 25⟩]

/-- Embedding of `isCoinPocketed(coin)`. -/
def isCoinPocketed (ai : CarromAI) (coin : PhysicsBody) : Bool :=
  (aiPockets ai).any fun p => decide (distance coin.position p.position ≤ p.radius)

/-- Embedding of `getTargetCoins(gameState)`. -/
def getTargetCoins (ai : CarromAI) (gs : GameState) : List PhysicsBody :=
  match gs.currentPlayer with
  | .player => gs.playerCoins.filter fun coin => !isCoinPocketed ai coin
  | .opponent => gs.opponentCoins.filter fun coin => !isCoinPocketed ai coin

/-- Embedding of `getStrikerStartArea()`: the loop
`for x from centerX - 60 to centerX + 60 step 10` runs exactly 13 times
regardless of the board width, at `y = boardHeight - 40`. -/
def getStrikerStartArea (ai : CarromAI) : List Point :=
  (List.range 13).map fun k =>
    ⟨ai.boardWidth / 2 - 60 + 10 * (k : ℚ), ai.boardHeight - 40⟩

/-- Embedding of the wall records of `getBoardWalls()`. -/
structure Wall where
  name : String
  start : Point
  endp : Point

/-- Embedding of `getBoardWalls()`. -/
def getBoardWalls (ai : CarromAI) : List Wall :=
  [⟨"top", ⟨0, 0⟩, ⟨ai.boardWidth, 0⟩⟩,
   ⟨"right", ⟨ai.boardWidth, 0⟩, ⟨ai.boardWidth, ai.boardHeight⟩⟩,
   ⟨"bottom", ⟨ai.boardWidth, ai.boardHeight⟩, ⟨0, ai.boardHeight⟩⟩,
   ⟨"left", ⟨0, ai.boardHeight⟩, ⟨0, 0⟩⟩]

/-- Embedding of `calculateBankPoint(coinPos, pocketPos, wall)`: the
documented placeholder heuristic projecting the coin-pocket midpoint onto
the named wall. -/
def calculateBankPoint (ai : CarromAI) (coinPos pocketPos : Point) (wall : Wall) :
    Option Point :=
  let midX := (coinPos.x + pocketPos.x) / 2
  let midY := (coinPos.y + pocketPos.y) / 2
  if wall.name = "top" then some ⟨midX, 20⟩
  else if wall.name = "bottom" then some ⟨midX, ai.boardHeight - 20⟩
  else if wall.name = "left" then some ⟨20, midY⟩
  else if wall.name = "right" then some ⟨ai.boardWidth - 20, midY⟩
  else none

/-- Embedding of `calculateRequiredPower(shotDistance, pocketDistance)`. -/
def calculateRequiredPower (shotDistance pocketDistance : ℚ) : ℚ :=
  min 100 (max 20 (shotDistance * 0.3 + pocketDistance * 0.1))

/-- Embedding of `powerToVelocity(power, angle)`. -/
def powerToVelocity (T : Trig) (power ang : ℚ) : Point :=
  ⟨T.cos ang * (power * 0.5), T.sin ang * (power * 0.5)⟩

/-- Embedding of `getPocketName(pocket)`. -/
def getPocketName (ai : CarromAI) (pocket : CarromPocket) : String :=
  if pocket.position.x < ai.boardWidth / 2 then
    if pocket.position.y < ai.boardHeight / 2 then "top-left" else "bottom-left"
  else if pocket.position.y < ai.boardHeight / 2 then "top-right" else "bottom-right"

/-- Embedding of `calculateShotProbability(strikerPos, targetPos, pocketPos,
shotType, gameState)`: multiplicative factors for distance, angle alignment,
shot type and path obstruction, scaled by the difficulty multiplier and
clamped to `[0.05, 0.95]` at the end.  The source switch has no
`combination` case, leaving the probability unchanged there. -/
def calculateShotProbability (T : Trig) (eng : PhysicsEngine) (ai : CarromAI)
    (strikerPos targetPos pocketPos : Point) (shotType : ShotType)
    (_gs : GameState) : ℚ :=
  let shotDistance := distance strikerPos targetPos
  let distanceFactor := max 0.1 (1 - shotDistance / 400)
  let optimalAngle := angle T targetPos pocketPos
  let shotAngle := angle T strikerPos targetPos
  let angleDiff := |normalizeAngle (optimalAngle + piQ) - normalizeAngle shotAngle|
  let angleFactor := max 0.1 (1 - angleDiff / piQ)
  let typeFactor : ℚ :=
    match shotType with
    | .direct => 1.0
    | .bank => 0.7
    | .carom => 0.5
    | .combination => 1
  let obstacleFactor : ℚ := if isPathClear eng strikerPos targetPos [] 2 then 1 else 0.6
  max 0.05 (min 0.95
    (0.8 * distanceFactor * angleFactor * typeFactor * obstacleFactor * ai.accuracyMultiplier))

/-- Embedding of `calculateDirectShots(targetCoin, pocket, strikerArea,
gameState)`: one candidate per striker position whose angle to the coin is
within 30 degrees of the reversed coin-to-pocket angle. -/
def calculateDirectShots (T : Trig) (eng : PhysicsEngine) (ai : CarromAI)
    (targetCoin : PhysicsBody) (pocket : CarromPocket) (strikerArea : List Point)
    (gs : GameState) : List ShotOption :=
  strikerArea.filterMap fun strikerPos =>
    let strikerToCoin := angle T strikerPos targetCoin.position
    let coinToPocket := angle T targetCoin.position pocket.position
    let angleDiff := |normalizeAngle strikerToCoin - normalizeAngle (coinToPocket + piQ)|
    if angleDiff ≤ piQ / 6 ∨ 2 * piQ - angleDiff ≤ piQ / 6 then
      let power := calculateRequiredPower (distance strikerPos targetCoin.position)
        (distance targetCoin.position pocket.position)
      let probability := calculateShotProbability T eng ai strikerPos targetCoin.position
        pocket.position .direct gs
      some { id := "direct_" ++ targetCoin.id ++ "_" ++ toString pocket.position.x ++ "_" ++
               toString pocket.position.y
             type := .direct
             targetCoin := targetCoin.id
             targetPocket := pocket
             strikerPosition := strikerPos
             angle := strikerToCoin
             power := power
             successProbability := probability
             trajectory := simulateTrajectory eng strikerPos
               (powerToVelocity T power strikerToCoin) 10 100 (1 / 60)
             bankPoints := none
             intermediateCoins := none
             description := "Direct shot to " ++ getPocketName ai pocket
             risk := if probability > 0.7 then .low
               else if probability > 0.4 then .medium else .high }
    else none

/-- Embedding of `calculateBankShots(targetCoin, pocket, strikerArea,
gameState)`: one candidate per striker position and wall; the bank point
always exists for the four named walls, and no angle tolerance is checked.
The stored probability is the clamped value times 0.8. -/
def calculateBankShots (T : Trig) (eng : PhysicsEngine) (ai : CarromAI)
    (targetCoin : PhysicsBody) (pocket : CarromPocket) (strikerArea : List Point)
    (gs : GameState) : List ShotOption :=
  strikerArea.flatMap fun strikerPos =>
    (getBoardWalls ai).filterMap fun wall =>
      (calculateBankPoint ai targetCoin.position pocket.position wall).map fun bankPoint =>
        let strikerToBank := angle T strikerPos bankPoint
        let shotDistance := distance strikerPos bankPoint +
          distance bankPoint targetCoin.position
        let power := calculateRequiredPower shotDistance
          (distance targetCoin.position pocket.position)
        let probability := calculateShotProbability T eng ai strikerPos targetCoin.position
          pocket.position .bank gs
        { id := "bank_" ++ targetCoin.id ++ "_" ++ toString pocket.position.x ++ "_" ++
            toString pocket.position.y ++ "_" ++ toString bankPoint.x
          type := .bank
          targetCoin := targetCoin.id
          targetPocket := pocket
          strikerPosition := strikerPos
          angle := strikerToBank
          power := power
          successProbability := probability * 0.8
          trajectory := simulateTrajectory eng strikerPos
            (powerToVelocity T power strikerToBank) 10 100 (1 / 60)
          bankPoints := some [bankPoint]
          intermediateCoins := none
          description := "Bank shot off " ++ wall.name ++ " to " ++ getPocketName ai pocket
          risk := if probability > 0.6 then .medium else .high }

/-- Embedding of `calculateCaromShots(targetCoin, pocket, strikerArea,
gameState)`: one candidate per striker position and live intermediate coin
within the 45 degree carom tolerance.  The stored probability is the clamped
value times 0.6. -/
def calculateCaromShots (T : Trig) (eng : PhysicsEngine) (ai : CarromAI)
    (targetCoin : PhysicsBody) (pocket : CarromPocket) (strikerArea : List Point)
    (gs : GameState) : List ShotOption :=
  let allCoins := gs.playerCoins ++ gs.opponentCoins
  let intermediateCoins := allCoins.filter fun coin =>
    coin.id != targetCoin.id && !isCoinPocketed ai coin
  strikerArea.flatMap fun strikerPos =>
    intermediateCoins.filterMap fun intermediateCoin =>
      let strikerToIntermediate := angle T strikerPos intermediateCoin.position
      let intermediateToTarget := angle T intermediateCoin.position targetCoin.position
      let targetToPocket := angle T targetCoin.position pocket.position
      let angleDiff := |normalizeAngle intermediateToTarget -
        normalizeAngle (targetToPocket + piQ)|
      if angleDiff ≤ piQ / 4 ∨ 2 * piQ - angleDiff ≤ piQ / 4 then
        let totalDistance := distance strikerPos intermediateCoin.position +
          distance intermediateCoin.position targetCoin.position
        let power := calculateRequiredPower totalDistance
          (distance targetCoin.position pocket.position)
        let probability := calculateShotProbability T eng ai strikerPos targetCoin.position
          pocket.position .carom gs
        some { id := "carom_" ++ targetCoin.id ++ "_" ++ intermediateCoin.id ++ "_" ++
                 toString pocket.position.x
               type := .carom
               targetCoin := targetCoin.id
               targetPocket := pocket
               strikerPosition := strikerPos
               angle := strikerToIntermediate
               power := power
               successProbability := probability * 0.6
               trajectory := simulateTrajectory eng strikerPos
                 (powerToVelocity T power strikerToIntermediate) 10 100 (1 / 60)
               bankPoints := none
               intermediateCoins := some [intermediateCoin.id]
               description := "Carom shot via " ++ intermediateCoin.id ++ " to " ++
                 getPocketName ai pocket
               risk := .high }
      else none

/-- Embedding of `calculatePositionalValue(shot)`. -/
def calculatePositionalValue (shot : ShotOption) : ℚ :=
  if shot.successProbability > 0.5 then 5 else 0

/-- Embedding of `calculateStrategicValue(shot, gameState)`. -/
def calculateStrategicValue (shot : ShotOption) (gs : GameState) : ℚ :=
  let v1 := shot.successProbability * 100
  let v2 := if gs.currentPlayer = .player ∧
      gs.playerCoins.any (fun coin => coin.id == shot.targetCoin) then v1 + 20 else v1
  let v3 := if shot.risk = .high then v2 - 10 else v2
  v3 + calculatePositionalValue shot

/-- The sort comparator of `rankShots` as a Boolean order: `a` may precede
`b` exactly when the JavaScript comparator returns a value that is at most
zero (probability difference outside the 0.1 tolerance band, strategic value
difference inside it). -/
def shotLE (gs : GameState) (a b : ShotOption) : Bool :=
  let probDiff := b.successProbability - a.successProbability
  if |probDiff| > 0.1 then decide (probDiff ≤ 0)
  else decide (calculateStrategicValue b gs - calculateStrategicValue a gs ≤ 0)

/-- Embedding of `rankShots(shots, gameState)`: sort by the comparator and
keep the top 10.  `Array.prototype.sort` (stable since ES2019) is embedded
as a stable merge sort; when probabilities straddle the tolerance band the
comparator is not a total preorder and engines may order differently — the
claims below depend only on membership, which any sort preserves. -/
def rankShots (gs : GameState) (shots : List ShotOption) : List ShotOption :=
  (shots.mergeSort (shotLE gs)).take 10

/-- Embedding of `analyzeShot(gameState)`: direct, bank and carom candidates
for every live target coin and pocket, ranked. -/
def analyzeShot (T : Trig) (eng : PhysicsEngine) (ai : CarromAI) (gs : GameState) :
    List ShotOption :=
  let strikerStartArea := getStrikerStartArea ai
  let shots := (getTargetCoins ai gs).flatMap fun targetCoin =>
    (aiPockets ai).flatMap fun pocket =>
      calculateDirectShots T eng ai targetCoin pocket strikerStartArea gs ++
        calculateBankShots T eng ai targetCoin pocket strikerStartArea gs ++
        calculateCaromShots T eng ai targetCoin pocket strikerStartArea gs
  rankShots gs shots

/-- Embedding of `getBestShot(gameState)`. -/
def getBestShot (T : Trig) (eng : PhysicsEngine) (ai : CarromAI) (gs : GameState) :
    Option ShotOption :=
  (analyzeShot T eng ai gs).head?

/-- Embedding of `getShotOptions(gameState, count)` (default count 5). -/
def getShotOptions (T : Trig) (eng : PhysicsEngine) (ai : CarromAI) (gs : GameState)
    (count : ℕ) : List ShotOption :=
  (analyzeShot T eng ai gs).take count

/-! ## Claim C3: probability bounds of returned candidates -/

/-- The final clamp of `calculateShotProbability` keeps the result inside
`[0.05, 0.95]`, whatever the inputs (and whatever the trig oracle). -/
theorem calculateShotProbability_bounds (T : Trig) (eng : PhysicsEngine) (ai : CarromAI)
    (strikerPos targetPos pocketPos : Point) (shotType : ShotType) (gs : GameState) :
    1 / 20 ≤ calculateShotProbability T eng ai strikerPos targetPos pocketPos shotType gs ∧
    calculateShotProbability T eng ai strikerPos targetPos pocketPos shotType gs ≤ 19 / 20 := by
  unfold calculateShotProbability
  constructor
  · exact le_trans (by norm_num) (le_max_left _ _)
  · exact max_le (by norm_num) (le_trans (min_le_left _ _) (by norm_num))

/-- Claim C3, amended: every candidate returned by `analyzeShot` (hence by
`getBestShot` and `getShotOptions`, which merely take a prefix) has
`successProbability` in `[0.03, 0.95]` — not `[0.05, 0.95]` as claimed.
Direct candidates respect `[0.05, 0.95]`; bank candidates carry the clamped
value times 0.8 and live in `[0.04, 0.76]`; carom candidates carry the
clamped value times 0.6 and live in `[0.03, 0.57]`; the `combination` kind
is never produced. -/
theorem claim_C3 (T : Trig) (eng : PhysicsEngine) (ai : CarromAI) (gs : GameState)
    (s : ShotOption) (hs : s ∈ analyzeShot T eng ai gs) :
    (3 / 100 ≤ s.successProbability ∧ s.successProbability ≤ 19 / 20) ∧
    (s.type = ShotType.direct →
      1 / 20 ≤ s.successProbability ∧ s.successProbability ≤ 19 / 20) ∧
    (s.type = ShotType.bank →
      1 / 25 ≤ s.successProbability ∧ s.successProbability ≤ 19 / 25) ∧
    (s.type = ShotType.carom →
      3 / 100 ≤ s.successProbability ∧ s.successProbability ≤ 57 / 100) ∧
    s.type ≠ ShotType.combination := by
  rw [analyzeShot, rankShots] at hs
  have hs2 := List.mem_mergeSort.mp (List.mem_of_mem_take hs)
  simp only [List.mem_flatMap, List.mem_append] at hs2
  obtain ⟨tc, _, pocket, _, hcase⟩ := hs2
  rcases hcase with (hdir | hbank) | hcarom
  · rw [calculateDirectShots] at hdir
    simp only [List.mem_filterMap] at hdir
    obtain ⟨pos, _, heq⟩ := hdir
    rw [Option.ite_none_right_eq_some] at heq
    obtain ⟨-, heq2⟩ := heq
    rw [← Option.some_inj.mp heq2]
    have hb := calculateShotProbability_bounds T eng ai pos tc.position pocket.position
      ShotType.direct gs
    refine ⟨⟨by linarith [hb.1], hb.2⟩, fun _ => ⟨hb.1, hb.2⟩, ?_, ?_, by simp⟩
    · intro h
      exact absurd h (by simp)
    · intro h
      exact absurd h (by simp)
  · rw [calculateBankShots] at hbank
    simp only [List.mem_flatMap, List.mem_filterMap, Option.map_eq_some'] at hbank
    obtain ⟨pos, _, wall, _, bp, _, heq⟩ := hbank
    obtain rfl := heq.symm
    have hb := calculateShotProbability_bounds T eng ai pos tc.position pocket.position
      ShotType.bank gs
    refine ⟨⟨by linarith [hb.1], by linarith [hb.2]⟩, ?_, fun _ =>
      ⟨by linarith [hb.1], by linarith [hb.2]⟩, ?_, by simp⟩
    · intro h
      exact absurd h (by simp)
    · intro h
      exact absurd h (by simp)
  · rw [calculateCaromShots] at hcarom
    simp only [List.mem_flatMap, List.mem_filterMap] at hcarom
    obtain ⟨pos, _, ic, _, heq⟩ := hcarom
    rw [Option.ite_none_right_eq_some] at heq
    obtain ⟨-, heq2⟩ := heq
    rw [← Option.some_inj.mp heq2]
    have hb := calculateShotProbability_bounds T eng ai pos tc.position pocket.position
      ShotType.carom gs
    refine ⟨⟨by linarith [hb.1], by linarith [hb.2]⟩, ?_, ?_, fun _ =>
      ⟨by linarith [hb.1], by linarith [hb.2]⟩, by simp⟩
    · intro h
      exact absurd h (by simp)
    · intro h
      exact absurd h (by simp)

/-! ## A concrete planner scenario

One live target coin far from every striker position, with the constant-zero
trig oracle: the direct gate fails everywhere (the angle difference is
exactly pi), no intermediate coin exists for caroms, and every bank
candidate bottoms out at the probability clamp. -/

/-- A trig oracle instance: `atan2` constantly 0, `cos` constantly 1, `sin`
constantly 0.  Any oracle works for the general planner theorems; this one
makes the concrete scenario fully computable. -/
def trigZero : Trig := ⟨fun _ _ => 0, fun _ => 1, fun _ => 0⟩

/-- The single live target coin of the scenario, 460+ units from every
striker start position. -/
def coinC : PhysicsBody := ⟨"c1", ⟨400, 300⟩, ⟨0, 0⟩, 8, 1, 0.02, 0.9, false⟩

/-- The striker body of the scenario snapshot. -/
def strikerP : PhysicsBody := ⟨"striker", ⟨400, 760⟩, ⟨0, 0⟩, 12, 2, 0.02, 0.9, false⟩

/-- The planner scenario engine: an empty registry on an 800 by 800 board,
so every path is clear. -/
def engineP : PhysicsEngine := ⟨[], 800, 800⟩

/-- The planner under expert difficulty on the 800 by 800 board. -/
def aiP : CarromAI := mkCarromAI 800 800 Difficulty.expert

/-- The scenario snapshot: one live player coin, no opponent coins, no
queen, player to move. -/
def gsP : GameState :=
  ⟨[coinC], [], strikerP, none, aiPockets aiP, PlayerSide.player, GamePhase.playing⟩

/-- In the scenario, the direct-shot list is empty for every pocket: under
the constant oracle both angles are 0, the angle difference is exactly
`piQ`, and the 30 degree gate fails. -/
theorem scenario_direct_empty :
    ∀ pk ∈ aiPockets aiP,
      calculateDirectShots trigZero engineP aiP coinC pk (getStrikerStartArea aiP) gsP = [] := by
  decide

/-- In the scenario, the carom-shot list is empty for every pocket: the only
coin is the target itself, so no intermediate exists. -/
theorem scenario_carom_empty :
    ∀ pk ∈ aiPockets aiP,
      calculateCaromShots trigZero engineP aiP coinC pk (getStrikerStartArea aiP) gsP = [] := by
  decide

set_option maxRecDepth 100000 in
/-- In the scenario, every bank-shot probability input bottoms out: the
clamp produces exactly 0.05 for every striker position and pocket. -/
theorem scenario_bank_prob :
    ∀ pos ∈ getStrikerStartArea aiP, ∀ pk ∈ aiPockets aiP,
      calculateShotProbability trigZero engineP aiP pos coinC.position pk.position
        ShotType.bank gsP = 1 / 20 := by
  decide

/-- Every candidate `analyzeShot` returns in the scenario is a bank shot
with `successProbability` exactly `0.05 * 0.8 = 0.04`. -/
theorem scenario_all_bank :
    ∀ s ∈ analyzeShot trigZero engineP aiP gsP,
      s.type = ShotType.bank ∧ s.successProbability = 1 / 25 := by
  intro s hs
  rw [analyzeShot, rankShots] at hs
  have hs2 := List.mem_mergeSort.mp (List.mem_of_mem_take hs)
  rw [show getTargetCoins aiP gsP = [coinC] from by decide] at hs2
  simp only [List.mem_flatMap, List.mem_append, List.mem_singleton] at hs2
  obtain ⟨tc, rfl, pocket, hpocket, hcase⟩ := hs2
  rcases hcase with (hdir | hbank) | hcarom
  · rw [scenario_direct_empty pocket hpocket] at hdir
    exact absurd hdir (List.not_mem_nil _)
  · rw [calculateBankShots] at hbank
    simp only [List.mem_flatMap, List.mem_filterMap, Option.map_eq_some'] at hbank
    obtain ⟨pos, hpos, wall, _, bp, _, heq⟩ := hbank
    rw [← heq]
    refine ⟨rfl, ?_⟩
    show calculateShotProbability trigZero engineP aiP pos coinC.position pocket.position
      ShotType.bank gsP * 0.8 = 1 / 25
    rw [scenario_bank_prob pos hpos pocket hpocket]
    norm_num
  · rw [scenario_carom_empty pocket hpocket] at hcarom
    exact absurd hcarom (List.not_mem_nil _)

set_option maxRecDepth 100000 in
/-- The scenario result is non-empty: the 208 unconditional bank candidates
survive into a 10-element ranked list. -/
theorem scenario_ne_nil : analyzeShot trigZero engineP aiP gsP ≠ [] := by
  intro h
  have hlen := congrArg List.length h
  rw [analyzeShot, rankShots, List.length_take, List.length_mergeSort] at hlen
  rw [show ((getTargetCoins aiP gsP).flatMap fun targetCoin =>
      (aiPockets aiP).flatMap fun pocket =>
        calculateDirectShots trigZero engineP aiP targetCoin pocket (getStrikerStartArea aiP) gsP ++
          calculateBankShots trigZero engineP aiP targetCoin pocket (getStrikerStartArea aiP) gsP ++
          calculateCaromShots trigZero engineP aiP targetCoin pocket
            (getStrikerStartArea aiP) gsP).length = 208 from by decide] at hlen
  simp at hlen

/-- Counterexample to claim C3 as stated: in the concrete scenario every
returned candidate is a bank shot whose stored probability is the clamp
floor 0.05 multiplied by 0.8 after clamping — 0.04, strictly below the
claimed lower bound 0.05. -/
theorem claim_C3_cex :
    ¬(∀ s ∈ analyzeShot trigZero engineP aiP gsP,
      1 / 20 ≤ s.successProbability ∧ s.successProbability ≤ 19 / 20) := by
  intro hall
  obtain ⟨s, hs⟩ := List.exists_mem_of_ne_nil _ scenario_ne_nil
  have h1 := (hall s hs).1
  rw [(scenario_all_bank s hs).2] at h1
  norm_num at h1

/-- Default shot record used only to name the head of a concrete result. -/
def dfltShot : ShotOption :=
  ⟨"", ShotType.direct, "", ⟨⟨0, 0⟩, 0⟩, ⟨0, 0⟩, 0, 0, 0, [], none, none, "", RiskLevel.high⟩

/-- Witness for claim C3 at the head of the concrete scenario result. -/
theorem claim_C3_witness :
    3 / 100 ≤ ((analyzeShot trigZero engineP aiP gsP).headD dfltShot).successProbability ∧
    ((analyzeShot trigZero engineP aiP gsP).headD dfltShot).successProbability ≤ 19 / 20 := by
  have hmem : (analyzeShot trigZero engineP aiP gsP).headD dfltShot ∈
      analyzeShot trigZero engineP aiP gsP := by
    cases h : analyzeShot trigZero engineP aiP gsP with
    | nil => exact absurd h scenario_ne_nil
    | cons a l => simp
  exact (claim_C3 trigZero engineP aiP gsP _ hmem).1

/-! ## Claim C2: the planner never returns empty -/

/-- Claim C2, amended: whenever the current player has at least one live
target coin, `analyzeShot` returns a non-empty list and `getBestShot`
returns a candidate — but not through any explicit last-resort fallback:
the guarantee comes from `calculateBankShots`, which generates a candidate
for every striker position and wall unconditionally, with no angle
tolerance check.  (The counterexample shows that when nothing clears the
angle tolerance the returned candidates are all bank shots, not a straight
suggestion at the nearest target.) -/
theorem claim_C2 (T : Trig) (eng : PhysicsEngine) (ai : CarromAI) (gs : GameState)
    (htarget : getTargetCoins ai gs ≠ []) :
    analyzeShot T eng ai gs ≠ [] ∧ (getBestShot T eng ai gs).isSome = true := by
  obtain ⟨tc, rest, htc⟩ : ∃ tc rest, getTargetCoins ai gs = tc :: rest := by
    cases h : getTargetCoins ai gs with
    | nil => exact absurd h htarget
    | cons a l => exact ⟨a, l, rfl⟩
  have hb : calculateBankShots T eng ai tc ⟨⟨30, 30⟩, 25⟩
      (getStrikerStartArea ai) gs ≠ [] :=
    List.cons_ne_nil _ _
  obtain ⟨sb, hsb⟩ := List.exists_mem_of_ne_nil _ hb
  have hpocket : (⟨⟨30, 30⟩, 25⟩ : CarromPocket) ∈ aiPockets ai := by
    rw [aiPockets]
    exact List.mem_cons_self _ _
  have htcmem : tc ∈ getTargetCoins ai gs := by
    rw [htc]
    exact List.mem_cons_self _ _
  have hmem : sb ∈ (getTargetCoins ai gs).flatMap fun targetCoin =>
      (aiPockets ai).flatMap fun pocket =>
        calculateDirectShots T eng ai targetCoin pocket (getStrikerStartArea ai) gs ++
          calculateBankShots T eng ai targetCoin pocket (getStrikerStartArea ai) gs ++
          calculateCaromShots T eng ai targetCoin pocket (getStrikerStartArea ai) gs := by
    refine List.mem_flatMap.mpr ⟨tc, htcmem, List.mem_flatMap.mpr ⟨_, hpocket, ?_⟩⟩
    exact List.mem_append_left _ (List.mem_append_right _ hsb)
  have hne : analyzeShot T eng ai gs ≠ [] := by
    rw [analyzeShot, rankShots]
    intro h
    have hlen := congrArg List.length h
    rw [List.length_take, List.length_mergeSort] at hlen
    have hpos := List.length_pos.mpr (List.ne_nil_of_mem hmem)
    simp only [List.length_nil] at hlen
    rcases Nat.min_eq_zero_iff.mp hlen with h10 | hl0
    · norm_num at h10
    · omega
  refine ⟨hne, ?_⟩
  rw [getBestShot]
  cases h : analyzeShot T eng ai gs with
  | nil => exact absurd h hne
  | cons a l => simp

/-- Witness for claim C2 at the concrete scenario. -/
theorem claim_C2_witness :
    analyzeShot trigZero engineP aiP gsP ≠ [] ∧
    (getBestShot trigZero engineP aiP gsP).isSome = true :=
  claim_C2 trigZero engineP aiP gsP (by decide)

/-- Counterexample to claim C2 as stated: in the concrete scenario no
candidate clears the angle tolerance for any (target, pocket) pair — every
direct and carom list is empty — yet no last-resort straight (direct-type)
suggestion toward the target appears in the result: the returned candidates
exist only because bank shots are generated unconditionally. -/
theorem claim_C2_cex :
    (∀ pk ∈ aiPockets aiP,
      calculateDirectShots trigZero engineP aiP coinC pk (getStrikerStartArea aiP) gsP = [] ∧
      calculateCaromShots trigZero engineP aiP coinC pk (getStrikerStartArea aiP) gsP = []) ∧
    getTargetCoins aiP gsP = [coinC] ∧
    analyzeShot trigZero engineP aiP gsP ≠ [] ∧
    ¬(∃ s ∈ analyzeShot trigZero engineP aiP gsP, s.type = ShotType.direct) := by
  refine ⟨fun pk hpk => ⟨scenario_direct_empty pk hpk, scenario_carom_empty pk hpk⟩,
    by decide, scenario_ne_nil, ?_⟩
  rintro ⟨s, hs, hty⟩
  have hbank := (scenario_all_bank s hs).1
  rw [hty] at hbank
  exact ShotType.noConfusion hbank

end Carrom
